import Mathlib

/-!
Verification of the virgo4-shelf-browse-ws service.

This file gives a shallow embedding of the service's core code
(cmd/service.go, cmd/urls.go) and proves properties of it:

* the document accessor (`solrDocument.getStrings`, `getFirstString`),
* the Solr terms-response extraction (`extractTerms`),
* the browse resolver (`handleBrowseRequest` and its pieces), and
* the cover-image URL builder (`coverParams`, `getCoverImageURL`).

Go runtime panics (failed type assertions) are modelled by `Option`:
a function returns `none` exactly when the corresponding Go code would
panic.  The Solr backend is modelled as an oracle (`backend`) mapping
each request to the outcome the running service would observe.
-/

set_option autoImplicit false

/-- Dynamic value stored in a decoded Solr document field, mirroring the
Go `interface\x7b\x7d` cases that `getStrings` distinguishes: `string`,
`float32` (represented by its exact rational value), `[]interface\x7b\x7d`,
`[]string`, and everything else (`nil`, numbers of other widths, maps, ...),
which falls through to the `default` branch. -/
inductive solrValue where
  | str (s : String)
  | num (q : ℚ)
  | arr (vs : List solrValue)
  | strArr (ss : List String)
  | other

mutual

/-- Boolean structural equality on stored values. -/
def solrValueBeq : solrValue → solrValue → Bool
  | .str a, .str b => a == b
  | .num a, .num b => a == b
  | .arr a, .arr b => solrValueListBeq a b
  | .strArr a, .strArr b => a == b
  | .other, .other => true
  | _, _ => false

/-- Boolean structural equality on lists of stored values. -/
def solrValueListBeq : List solrValue → List solrValue → Bool
  | [], [] => true
  | a :: as, b :: bs => solrValueBeq a b && solrValueListBeq as bs
  | _, _ => false

end

mutual

theorem solrValueBeq_refl : ∀ a : solrValue, solrValueBeq a a = true
  | .str a => by simp [solrValueBeq]
  | .num a => by simp [solrValueBeq]
  | .arr a => by simp [solrValueBeq, solrValueListBeq_refl a]
  | .strArr a => by simp [solrValueBeq]
  | .other => rfl

theorem solrValueListBeq_refl : ∀ l : List solrValue, solrValueListBeq l l = true
  | [] => rfl
  | a :: as => by simp [solrValueListBeq, solrValueBeq_refl a, solrValueListBeq_refl as]

end

mutual

theorem solrValueBeq_eq : ∀ a b : solrValue, solrValueBeq a b = true → a = b
  | .str a, .str b => by simp [solrValueBeq]
  | .num a, .num b => by simp [solrValueBeq]
  | .arr a, .arr b => by
    simp only [solrValueBeq, solrValue.arr.injEq]
    exact solrValueListBeq_eq a b
  | .strArr a, .strArr b => by simp [solrValueBeq]
  | .other, .other => fun _ => rfl
  | .str _, .num _ => fun h => by simp [solrValueBeq] at h
  | .str _, .arr _ => fun h => by simp [solrValueBeq] at h
  | .str _, .strArr _ => fun h => by simp [solrValueBeq] at h
  | .str _, .other => fun h => by simp [solrValueBeq] at h
  | .num _, .str _ => fun h => by simp [solrValueBeq] at h
  | .num _, .arr _ => fun h => by simp [solrValueBeq] at h
  | .num _, .strArr _ => fun h => by simp [solrValueBeq] at h
  | .num _, .other => fun h => by simp [solrValueBeq] at h
  | .arr _, .str _ => fun h => by simp [solrValueBeq] at h
  | .arr _, .num _ => fun h => by simp [solrValueBeq] at h
  | .arr _, .strArr _ => fun h => by simp [solrValueBeq] at h
  | .arr _, .other => fun h => by simp [solrValueBeq] at h
  | .strArr _, .str _ => fun h => by simp [solrValueBeq] at h
  | .strArr _, .num _ => fun h => by simp [solrValueBeq] at h
  | .strArr _, .arr _ => fun h => by simp [solrValueBeq] at h
  | .strArr _, .other => fun h => by simp [solrValueBeq] at h
  | .other, .str _ => fun h => by simp [solrValueBeq] at h
  | .other, .num _ => fun h => by simp [solrValueBeq] at h
  | .other, .arr _ => fun h => by simp [solrValueBeq] at h
  | .other, .strArr _ => fun h => by simp [solrValueBeq] at h

theorem solrValueListBeq_eq : ∀ a b : List solrValue, solrValueListBeq a b = true → a = b
  | [], [] => fun _ => rfl
  | [], _ :: _ => fun h => by simp [solrValueListBeq] at h
  | _ :: _, [] => fun h => by simp [solrValueListBeq] at h
  | a :: as, b :: bs => by
    simp only [solrValueListBeq, Bool.and_eq_true, List.cons.injEq]
    exact fun h => ⟨solrValueBeq_eq a b h.1, solrValueListBeq_eq as bs h.2⟩

end

instance : DecidableEq solrValue := fun a b =>
  if h : solrValueBeq a b = true then isTrue (solrValueBeq_eq a b h)
  else isFalse (fun he => h (he ▸ solrValueBeq_refl a))

/-- Go type `solrDocument = map[string]interface\x7b\x7d`, as an association
list from field name to stored value. -/
def solrDocument : Type := List (String × solrValue)

instance : DecidableEq solrDocument := by
  unfold solrDocument
  infer_instance

/-- Go expression `val.(string)`: the unchecked string type assertion.
Returns `none` (a runtime panic) on any non-string value. -/
def assertString : solrValue → Option String
  | .str s => some s
  | _ => none

/-- Go `(*s)[field]` : map lookup; a missing key yields the `nil`
interface value, which `getStrings` treats like any other unrecognized
value (`other`). -/
def getRawValue (doc : solrDocument) (field : String) : solrValue :=
  match doc with
  | [] => .other
  | (f, v) :: rest => if f = field then v else getRawValue rest field

/-- True when the document has an entry for the field. -/
def hasField (doc : solrDocument) (field : String) : Bool :=
  match doc with
  | [] => false
  | (f, _) :: rest => f = field || hasField rest field

/-- Left-pads a decimal string with zeros to the requested width. -/
def padLeftZeros (s : String) (n : Nat) : String :=
  String.mk (List.replicate (n - s.length) '0') ++ s

/-- Models Go `fmt.Sprintf("%0.8f", f)` applied to a `float32`, with the
float represented by its exact rational value: fixed-point rendering with
eight digits after the decimal point, rounding to nearest. -/
def fmtFixed8 (q : ℚ) : String :=
  let n : Nat := (round (|q| * 100000000) : ℤ).toNat
  (if q < 0 then "-" else "") ++ toString (n / 100000000) ++ "." ++
    padLeftZeros (toString (n % 100000000)) 8

/-- Effectful element-wise map over `Option`, mirroring a Go loop that
can panic at each element: `none` as soon as one element fails. -/
def mapOption {α β : Type} (f : α → Option β) : List α → Option (List β)
  | [] => some []
  | a :: l => do
    let b ← f a
    let l' ← mapOption f l
    some (b :: l')

/-- Embedding of `solrDocument.getStrings` (cmd/service.go): normalizes a
stored field value into a string slice.  The `[]interface\x7b\x7d` branch
performs an unchecked `val.(string)` assertion per element, so a sequence
containing a non-string value panics (`none`). -/
def getStrings (doc : solrDocument) (field : String) : Option (List String) :=
  match getRawValue doc field with
  | .arr vs => mapOption assertString vs
  | .strArr ss => some ss
  | .str s => some [s]
  | .num q => some [fmtFixed8 q]
  | .other => some []

/-- Modelled from the spec: the helper `firstElementOf` is referenced by
`getFirstString` but lives outside the provided sources; per the spec,
`getFirstValue` returns the first element of `getValues`, or the empty
string if there is none. -/
def firstElementOf (xs : List String) : String := xs.headD ""

/-- Embedding of `solrDocument.getFirstString` (cmd/service.go). -/
def getFirstString (doc : solrDocument) (field : String) : Option String :=
  (getStrings doc field).map firstElementOf

/-- A stored value on which the accessor cannot panic: every element of a
native `[]interface\x7b\x7d` sequence is a string. -/
def wellFormedValue : solrValue → Bool
  | .arr vs => vs.all (fun v => (assertString v).isSome)
  | _ => true

/-- A document on which the accessor cannot panic for any field. -/
def wellFormedDoc (doc : solrDocument) : Bool :=
  match doc with
  | [] => true
  | (_, v) :: rest => wellFormedValue v && wellFormedDoc rest

theorem mapOption_assertString_isSome (vs : List solrValue) :
    (mapOption assertString vs).isSome = vs.all (fun v => (assertString v).isSome) := by
  induction vs with
  | nil => rfl
  | cons v rest ih =>
    cases hv : assertString v with
    | none => simp [mapOption, hv]
    | some s =>
      cases hr : mapOption assertString rest with
      | none => simp [mapOption, hv, hr, ← ih]
      | some l => simp [mapOption, hv, hr, ← ih]

theorem getRawValue_wellFormed (doc : solrDocument) (field : String)
    (h : wellFormedDoc doc = true) :
    wellFormedValue (getRawValue doc field) = true := by
  induction doc with
  | nil => rfl
  | cons p rest ih =>
    obtain ⟨f, v⟩ := p
    simp only [wellFormedDoc, Bool.and_eq_true] at h
    simp only [getRawValue]
    split
    · exact h.1
    · exact ih h.2

theorem getStrings_isSome_of_wellFormed (doc : solrDocument) (field : String)
    (h : wellFormedDoc doc = true) :
    (getStrings doc field).isSome = true := by
  have hv := getRawValue_wellFormed doc field h
  unfold getStrings
  cases hr : getRawValue doc field with
  | arr vs =>
    rw [hr] at hv
    rw [mapOption_assertString_isSome]
    exact hv
  | str s => rfl
  | num q => rfl
  | strArr ss => rfl
  | other => rfl

theorem getFirstString_isSome_of_wellFormed (doc : solrDocument) (field : String)
    (h : wellFormedDoc doc = true) :
    (getFirstString doc field).isSome = true := by
  have h2 := getStrings_isSome_of_wellFormed doc field h
  unfold getFirstString
  cases h3 : getStrings doc field with
  | none => rw [h3] at h2; simp at h2
  | some l => rfl

theorem fmtFixed8_35 : fmtFixed8 (7 / 2 : ℚ) = "3.50000000" := by
  have h1 : |(7 / 2 : ℚ)| * 100000000 = ((350000000 : ℤ) : ℚ) := by
    rw [abs_of_nonneg (by norm_num : (0 : ℚ) ≤ 7 / 2)]
    norm_num
  have h2 : ¬ (7 / 2 : ℚ) < 0 := by norm_num
  unfold fmtFixed8
  rw [h1, round_intCast]
  simp only [if_neg h2]
  decide

theorem hasField_false_getRawValue (doc : solrDocument) (field : String)
    (h : hasField doc field = false) :
    getRawValue doc field = .other := by
  induction doc with
  | nil => rfl
  | cons p rest ih =>
    obtain ⟨f, v⟩ := p
    simp only [hasField, Bool.or_eq_false_iff, decide_eq_false_iff_not] at h
    simp only [getRawValue, if_neg h.1]
    exact ih h.2

/-- C6: a field holding a single scalar string `s` yields `getValues = [s]`
and `getFirstValue = s`; a field holding the single scalar number `3.5`
yields `getValues = ["3.50000000"]` (eight decimal places); an absent
field yields the empty sequence, with `getFirstValue = ""`. -/
theorem getStrings_scalar_roundtrip (doc : solrDocument) (fs fn fa : String) (s : String)
    (hs : getRawValue doc fs = .str s)
    (hn : getRawValue doc fn = .num (7 / 2 : ℚ))
    (ha : hasField doc fa = false) :
    getStrings doc fs = some [s] ∧ getFirstString doc fs = some s ∧
    getStrings doc fn = some ["3.50000000"] ∧
    getStrings doc fa = some [] ∧ getFirstString doc fa = some "" := by
  have ha' := hasField_false_getRawValue doc fa ha
  refine ⟨?_, ?_, ?_, ?_, ?_⟩
  · simp [getStrings, hs]
  · simp [getFirstString, getStrings, hs, firstElementOf]
  · simp only [getStrings, hn]
    rw [fmtFixed8_35]
  · simp [getStrings, ha']
  · simp [getFirstString, getStrings, ha', firstElementOf]

/-- Concrete instance of the accessor round-trip properties. -/
theorem getStrings_scalar_roundtrip_witness :
    getStrings [("a", .str "hello"), ("b", .num (7 / 2 : ℚ))] "a" = some ["hello"] ∧
    getFirstString [("a", .str "hello"), ("b", .num (7 / 2 : ℚ))] "a" = some "hello" ∧
    getStrings [("a", .str "hello"), ("b", .num (7 / 2 : ℚ))] "b" = some ["3.50000000"] ∧
    getStrings [("a", .str "hello"), ("b", .num (7 / 2 : ℚ))] "c" = some [] ∧
    getFirstString [("a", .str "hello"), ("b", .num (7 / 2 : ℚ))] "c" = some "" :=
  getStrings_scalar_roundtrip [("a", .str "hello"), ("b", .num (7 / 2 : ℚ))]
    "a" "b" "c" "hello" rfl rfl (by decide)

/-- C7 counterexample: a native sequence of mixed scalars is not
string-cast element-wise; the unchecked `val.(string)` assertion panics
(modelled by `none`) on the numeric element, so the accessor can abort
the request, contrary to the claim. -/
theorem getStrings_mixed_sequence_panics :
    getStrings [("f", .arr [.num (7 / 2 : ℚ), .str "a"])] "f" = none ∧
    getFirstString [("f", .arr [.num (7 / 2 : ℚ), .str "a"])] "f" = none := by
  constructor
  · decide
  · decide

/-- C7 amended: the accessor never panics except when the stored value is
a native sequence containing a non-string element; equivalently, it
returns a result exactly on well-formed stored values, and malformed
(unrecognized) representations degrade to empty results. -/
theorem getStrings_isSome_iff_wellFormed (doc : solrDocument) (field : String) :
    (getStrings doc field).isSome = wellFormedValue (getRawValue doc field) ∧
    (getFirstString doc field).isSome = wellFormedValue (getRawValue doc field) := by
  have h1 : (getStrings doc field).isSome = wellFormedValue (getRawValue doc field) := by
    unfold getStrings
    cases hr : getRawValue doc field with
    | arr vs =>
      show (mapOption assertString vs).isSome = _
      rw [mapOption_assertString_isSome]
      rfl
    | str s => rfl
    | num q => rfl
    | strArr ss => rfl
    | other => rfl
  refine ⟨h1, ?_⟩
  rw [getFirstString]
  cases h3 : getStrings doc field with
  | none => rw [h3] at h1; simpa using h1.symm
  | some l => rw [h3] at h1; simpa using h1.symm

/-- Raw element sequence of the decoded terms response for one field
(Go `solrRes.Terms[field]`, a `[]interface\x7b\x7d` of alternating term
strings and counts). -/
def extractTermsAux : List solrValue → Nat → Option (List String)
  | [], _ => some []
  | v :: rest, i =>
    if i % 2 = 0 then do
      let s ← assertString v
      let l ← extractTermsAux rest (i + 1)
      some (s :: l)
    else extractTermsAux rest (i + 1)

/-- Embedding of the term-building loop of `solrTerms` (cmd/service.go):
walk the interleaved response array and keep the elements at even 0-based
offsets (the 1st, 3rd, 5th, ... entries), asserting each to be a string
(`none` models the Go panic on a non-string term element). -/
def extractTerms (raw : List solrValue) : Option (List String) :=
  extractTermsAux raw 0

/-- Builds the backend's interleaved terms array
`[term1, count1, term2, count2, ...]` from (term, count) pairs. -/
def interleavePairs : List (String × solrValue) → List solrValue
  | [] => []
  | (t, c) :: rest => .str t :: c :: interleavePairs rest

theorem extractTermsAux_interleave (ps : List (String × solrValue)) :
    ∀ i : Nat, i % 2 = 0 →
      extractTermsAux (interleavePairs ps) i = some (ps.map Prod.fst) := by
  induction ps with
  | nil => intro i _; rfl
  | cons p rest ih =>
    intro i hi
    obtain ⟨t, c⟩ := p
    have h1 : ¬ (i + 1) % 2 = 0 := by omega
    have h2 : (i + 2) % 2 = 0 := by omega
    simp only [interleavePairs, extractTermsAux, if_pos hi, if_neg h1, assertString]
    rw [ih (i + 2) h2]
    rfl

/-- C5: on a successfully decoded terms response whose array for the
requested field interleaves term strings with count values
(`[term1, count1, term2, count2, ...]`), the client's extraction loop
returns exactly the term elements (the odd entries in 1-based position,
i.e. even 0-based offsets), in order, discarding every count element. -/
theorem extractTerms_interleaved (ps : List (String × solrValue)) :
    extractTerms (interleavePairs ps) = some (ps.map Prod.fst) :=
  extractTermsAux_interleave ps 0 rfl

/-- Configuration slice `serviceConfigSolrShelfBrowse` (cmd/config.go). -/
structure shelfBrowseConfig where
  forwardKey : String
  reverseKey : String
  defaultItems : Int
  maxItems : Int
deriving DecidableEq

/-- Configuration slice `serviceConfigCoverImages` (cmd/config.go);
`prefixURL` models the `URLPrefix` setting. -/
structure coverImagesConfig where
  prefixURL : String
  idField : String
  titleField : String
  authorFields : List String
  isbnField : String
  lccnField : String
  oclcField : String
  poolField : String
  upcField : String
  musicPool : String
deriving DecidableEq

/-- One entry of the configured output field list
(`serviceConfigField`, cmd/config.go). -/
structure outputField where
  name : String
  field : String
deriving DecidableEq

/-- The parts of `serviceConfig` the browse resolver reads. -/
structure serviceConfig where
  shelfBrowse : shelfBrowseConfig
  coverImages : coverImagesConfig
  fields : List outputField
deriving DecidableEq

/-- Outcome of one `solrItemQuery` round trip as `performItemQuery`
observes it: a transport/decode/Solr error carrying a message, zero rows,
or at least one row, of which the code uses only `Docs[0]`. -/
inductive lookupResult where
  | err (msg : String)
  | empty
  | found (doc : solrDocument)
deriving DecidableEq

/-- Oracle for the Solr backend as seen from one request.  `lookup` maps
a document query string to its outcome; `terms` maps a terms request
(field, exclusive lower-bound key, caller limit — the HTTP request asks
for `10 * limit` terms above the key in index order) to its outcome;
`newRequestFails` tells whether Go `http.NewRequest` rejects a URL
(cmd/urls.go error branch). -/
structure backend where
  lookup : String → lookupResult
  terms : String → String → Int → Except String (List String)
  newRequestFails : String → Bool

/-- Wire shape `shelfBrowseResponse` (cmd/service.go): the projected item
maps plus a status code and message. -/
structure shelfBrowseResponse where
  items : List (List (String × String))
  statusCode : Nat
  statusMessage : String
deriving DecidableEq

/-- Internal result `searchResponse` (cmd/service.go): HTTP status, JSON
payload, and the Go error value (`none` for nil). -/
structure searchResponse where
  status : Nat
  data : Option shelfBrowseResponse
  err : Option String
deriving DecidableEq

/-- Struct `shelfBrowseItem` (cmd/service.go): a resolved document with
its two extracted shelf keys. -/
structure shelfBrowseItem where
  doc : solrDocument
  forwardKey : String
  reverseKey : String
deriving DecidableEq

/-- Go `fmt.Sprintf("%s:%q-ish", field, value)` in `getItemDetails`:
the exact-phrase item query string. -/
def itemQueryString (field value : String) : String :=
  field ++ ":\"" ++ value ++ "\""

/-- Embedding of `getItemDetails` composed with `performItemQuery`
(cmd/service.go): resolve an item by exact field query, classify the
outcome (backend error → 500, zero rows → 404 "record not found"),
extract both shelf keys, and report 404 "item does not have shelf keys"
when both are empty.  The outer `Option` models runtime panics during
key extraction. -/
def getItemDetails (cfg : serviceConfig) (b : backend) (field value : String) :
    Option (Except searchResponse shelfBrowseItem) :=
  match b.lookup (itemQueryString field value) with
  | .err msg => some (.error ⟨500, none, some msg⟩)
  | .empty => some (.error ⟨404, none, some "record not found"⟩)
  | .found doc => do
    let fk ← getFirstString doc cfg.shelfBrowse.forwardKey
    let rk ← getFirstString doc cfg.shelfBrowse.reverseKey
    if fk = "" ∧ rk = "" then
      some (.error ⟨404, none, some "item does not have shelf keys"⟩)
    else
      some (.ok ⟨doc, fk, rk⟩)

/-- Embedding of the range-resolution prologue of `handleBrowseRequest`
(cmd/service.go): `rng = none` models an absent or non-numeric `range`
query parameter; otherwise the parsed integer.  The Go `switch` applies
only its first matching case. -/
def resolveLimit (defaultItems maxItems : Int) (rng : Option Int) : Int :=
  let limit := match rng with
    | some r => r
    | none => defaultItems
  if limit ≤ 0 then defaultItems
  else if limit > maxItems then maxItems
  else limit

/-- C8 counterexample: with a configured default of 5 and a configured
maximum of 3, an absent (or non-numeric) range parameter does not yield
the configured default — the Go switch then caps the default to the
maximum, producing 3. -/
theorem resolveLimit_absent_not_default :
    resolveLimit 5 3 none = 3 ∧ resolveLimit 5 3 none ≠ 5 := by
  constructor
  · decide
  · decide

/-- C8 amended: the effective limit is the parsed value clamped as
claimed — default on a non-positive parse, maximum on a positive parse
above the maximum, the parse itself otherwise, and the request is never
rejected — while an absent or non-numeric parameter yields the default
only provided the configured default does not exceed the configured
maximum (otherwise the maximum is returned instead). -/
theorem resolveLimit_cases (d m : Int) (rng : Option Int) :
    (d ≤ m → rng = none → resolveLimit d m rng = d) ∧
    (∀ r : Int, rng = some r →
      (r ≤ 0 → resolveLimit d m rng = d) ∧
      (0 < r → m < r → resolveLimit d m rng = m) ∧
      (0 < r → r ≤ m → resolveLimit d m rng = r)) := by
  constructor
  · intro hdm hn
    subst hn
    unfold resolveLimit
    simp only
    split
    · rfl
    · split
      · omega
      · rfl
  · intro r hr
    subst hr
    refine ⟨?_, ?_, ?_⟩
    · intro h0
      unfold resolveLimit
      simp only [if_pos h0]
    · intro h0 hm
      unfold resolveLimit
      simp only
      rw [if_neg (by omega), if_pos (by omega)]
    · intro h0 hm
      unfold resolveLimit
      simp only
      rw [if_neg (by omega), if_neg (by omega)]

/-- Concrete instances of the amended range-resolution behavior. -/
theorem resolveLimit_cases_witness :
    resolveLimit 2 5 none = 2 ∧ resolveLimit 2 5 (some 7) = 5 ∧
    resolveLimit 2 5 (some (-1)) = 2 ∧ resolveLimit 2 5 (some 4) = 4 :=
  ⟨(resolveLimit_cases 2 5 none).1 (by decide) rfl,
   ((resolveLimit_cases 2 5 (some 7)).2 7 rfl).2.1 (by decide) (by decide),
   ((resolveLimit_cases 2 5 (some (-1))).2 (-1) rfl).1 (by decide),
   ((resolveLimit_cases 2 5 (some 4)).2 4 rfl).2.2 (by decide) (by decide)⟩

theorem resolveLimit_pos (d m : Int) (rng : Option Int) (hd : 0 < d) (hdm : d ≤ m) :
    0 < resolveLimit d m rng := by
  unfold resolveLimit
  cases rng with
  | none =>
    simp only
    split
    · exact hd
    · split
      · omega
      · omega
  | some r =>
    simp only
    split
    · exact hd
    · split
      · omega
      · omega

theorem resolveLimit_le_max (d m : Int) (rng : Option Int) (hdm : d ≤ m) :
    resolveLimit d m rng ≤ m := by
  unfold resolveLimit
  cases rng with
  | none =>
    simp only
    split
    · exact hdm
    · split
      · omega
      · omega
  | some r =>
    simp only
    split
    · exact hdm
    · split
      · omega
      · omega

/-- Modelled from the spec: the helper `sliceContainsString` is referenced
by `getCoverImageURL` but lives outside the provided sources; per the
spec, the document is classified as music when its pool-field values
contain the configured music-pool marker. -/
def sliceContainsString (l : List String) (s : String) : Bool :=
  l.contains s

/-- Go `strings.Trim(s, " ")`: strip leading and trailing space
characters. -/
def trimSpaces (s : String) : String :=
  String.mk (((s.toList.dropWhile (· = ' ')).reverse.dropWhile (· = ' ')).reverse)

/-- Go `strings.Trim(strings.Split(authorValue, "[")[0], " ")`
(cmd/urls.go): discard text from the first `[` onward, then trim
surrounding spaces. -/
def stripAuthorDates (s : String) : String :=
  trimSpaces (String.mk (s.toList.takeWhile (· ≠ '[')))

/-- Embedding of the author-selection loop of `getCoverImageURL`
(cmd/urls.go): the first author-field candidate whose first value is
non-empty; empty if none is.  `none` models a panic inside the
accessor. -/
def firstAuthor (doc : solrDocument) : List String → Option String
  | [] => some ""
  | f :: rest => do
    let v ← getFirstString doc f
    if v = "" then firstAuthor doc rest else some v

/-- UTF-8 byte sequence of a character, for percent-encoding. -/
def utf8Bytes (c : Char) : List Nat :=
  let n := c.toNat
  if n < 128 then [n]
  else if n < 2048 then [192 + n / 64, 128 + n % 64]
  else if n < 65536 then [224 + n / 4096, 128 + (n / 64) % 64, 128 + n % 64]
  else [240 + n / 262144, 128 + (n / 4096) % 64, 128 + (n / 64) % 64, 128 + n % 64]

/-- Uppercase hexadecimal digit. -/
def hexDigit (n : Nat) : Char :=
  "0123456789ABCDEF".toList.getD n '0'

/-- Percent-encoding of one byte. -/
def percentByte (b : Nat) : String :=
  String.mk ['%', hexDigit (b / 16), hexDigit (b % 16)]

/-- Characters Go `url.QueryEscape` leaves unescaped (alphanumerics and
`-_.~`); space is handled separately. -/
def queryUnescaped (c : Char) : Bool :=
  ('a'.toNat ≤ c.toNat && c.toNat ≤ 'z'.toNat) ||
  ('A'.toNat ≤ c.toNat && c.toNat ≤ 'Z'.toNat) ||
  ('0'.toNat ≤ c.toNat && c.toNat ≤ '9'.toNat) ||
  c = '-' || c = '_' || c = '.' || c = '~'

/-- Go `url.QueryEscape`: spaces become `+`, unreserved characters pass
through, everything else is percent-encoded byte-wise. -/
def queryEscape (s : String) : String :=
  String.join (s.toList.map fun c =>
    if c = ' ' then "+"
    else if queryUnescaped c then String.mk [c]
    else String.join ((utf8Bytes c).map percentByte))

/-- Insertion into a lexicographically sorted list of keys. -/
def insertSorted (k : String) : List String → List String
  | [] => [k]
  | x :: xs => if (compare k x).isLE then k :: x :: xs else x :: insertSorted k xs

/-- Sort key strings ascending (Go `url.Values.Encode` sorts keys). -/
def sortStrings (l : List String) : List String :=
  l.foldr insertSorted []

/-- Go `url.Values.Encode`: keys sorted, each `key=value` pair escaped
and joined with `&`. -/
def encodeQuery (ps : List (String × String)) : String :=
  String.intercalate "&"
    ((sortStrings ((ps.map Prod.fst).dedup)).flatMap fun k =>
      (ps.filter fun p => p.1 == k).map fun p =>
        queryEscape k ++ "=" ++ queryEscape p.2)

/-- Query parameters accumulated by `getCoverImageURL` (cmd/urls.go), in
`qp.Add` order: classification and music/non-music attributes, then the
optional comma-joined identifier attributes.  `none` models an accessor
panic while reading the document. -/
def coverParams (cfg : coverImagesConfig) (doc : solrDocument) :
    Option (List (String × String)) := do
  let title ← getFirstString doc cfg.titleField
  let poolValues ← getStrings doc cfg.poolField
  let authorValue ← firstAuthor doc cfg.authorFields
  let author := stripAuthorDates authorValue
  let base :=
    if sliceContainsString poolValues cfg.musicPool then
      [("doc_type", "music")] ++
        (if author.length > 0 then [("artist_name", author)] else []) ++
        (if title.length > 0 then [("album_name", title)] else [])
    else
      [("doc_type", "non_music")] ++
        (if title.length > 0 then [("title", title)] else [])
  let isbns ← getStrings doc cfg.isbnField
  let oclcs ← getStrings doc cfg.oclcField
  let lccns ← getStrings doc cfg.lccnField
  let upcs ← getStrings doc cfg.upcField
  some (base ++
    (if isbns.length > 0 then [("isbn", String.intercalate "," isbns)] else []) ++
    (if oclcs.length > 0 then [("oclc", String.intercalate "," oclcs)] else []) ++
    (if lccns.length > 0 then [("lccn", String.intercalate "," lccns)] else []) ++
    (if upcs.length > 0 then [("upc", String.intercalate "," upcs)] else []))

/-- Embedding of `getCoverImageURL` (cmd/urls.go): base URL = configured
prefix + id-field first value; if `http.NewRequest` rejects that URL the
function returns the empty string; otherwise the parameter set is
attached as an encoded query string.  The model assumes the configured
prefix carries no query string of its own, so `req.URL.Query()` starts
empty. -/
def getCoverImageURL (cfg : coverImagesConfig) (b : backend) (doc : solrDocument) :
    Option String := do
  let id ← getFirstString doc cfg.idField
  let url := cfg.prefixURL ++ id
  if b.newRequestFails url then
    some ""
  else do
    let ps ← coverParams cfg doc
    some (url ++ "?" ++ encodeQuery ps)

/-- Cover-image configuration used by concrete examples. -/
def cfgC : coverImagesConfig :=
  ⟨"http://c/", "id", "title", ["author"], "isbn", "lccn", "oclc", "pool", "upc", "music"⟩

/-- A music document whose isbn field holds one empty string. -/
def docC : solrDocument :=
  [("id", .str "u1"), ("title", .str "T"),
   ("author", .str "Bach, J.S. [1685-1750]"),
   ("pool", .strArr ["music"]), ("isbn", .strArr [""])]

/-- C9 counterexample: an attribute with an empty value is not always
omitted.  The identifier attributes are attached whenever the field's
value list is nonempty, so an isbn field holding one empty string yields
an `isbn` attribute whose value is the empty string. -/
theorem coverParams_empty_isbn_attached :
    coverParams cfgC docC =
      some [("doc_type", "music"), ("artist_name", "Bach, J.S."),
            ("album_name", "T"), ("isbn", "")] := by
  decide

/-- C9 amended: on a document the accessor can read without panicking,
the builder never fails (every outcome is a string; URL-construction
errors yield the empty string); when the pool values contain the music
marker it attaches `doc_type=music`, `artist_name` = the first non-empty
author-candidate value with text from the first `[` on discarded and the
rest trimmed, and `album_name` = the title first value — each of those
omitted when empty — while each identifier attribute (isbn, oclc, lccn,
upc) is attached, comma-joined, whenever its value list is nonempty,
even if the joined value is empty. -/
theorem coverParams_music (cfg : coverImagesConfig) (b : backend) (doc : solrDocument)
    (title authorValue docid : String) (pool isbns oclcs lccns upcs : List String)
    (htitle : getFirstString doc cfg.titleField = some title)
    (hpool : getStrings doc cfg.poolField = some pool)
    (hauthor : firstAuthor doc cfg.authorFields = some authorValue)
    (hisbn : getStrings doc cfg.isbnField = some isbns)
    (hoclc : getStrings doc cfg.oclcField = some oclcs)
    (hlccn : getStrings doc cfg.lccnField = some lccns)
    (hupc : getStrings doc cfg.upcField = some upcs)
    (hid : getFirstString doc cfg.idField = some docid)
    (hmusic : sliceContainsString pool cfg.musicPool = true) :
    coverParams cfg doc = some (
      [("doc_type", "music")] ++
      (if (stripAuthorDates authorValue).length > 0 then
        [("artist_name", stripAuthorDates authorValue)] else []) ++
      (if title.length > 0 then [("album_name", title)] else []) ++
      (if isbns.length > 0 then [("isbn", String.intercalate "," isbns)] else []) ++
      (if oclcs.length > 0 then [("oclc", String.intercalate "," oclcs)] else []) ++
      (if lccns.length > 0 then [("lccn", String.intercalate "," lccns)] else []) ++
      (if upcs.length > 0 then [("upc", String.intercalate "," upcs)] else [])) ∧
    ∃ u : String, getCoverImageURL cfg b doc = some u := by
  have hcp : coverParams cfg doc = some (
      [("doc_type", "music")] ++
      (if (stripAuthorDates authorValue).length > 0 then
        [("artist_name", stripAuthorDates authorValue)] else []) ++
      (if title.length > 0 then [("album_name", title)] else []) ++
      (if isbns.length > 0 then [("isbn", String.intercalate "," isbns)] else []) ++
      (if oclcs.length > 0 then [("oclc", String.intercalate "," oclcs)] else []) ++
      (if lccns.length > 0 then [("lccn", String.intercalate "," lccns)] else []) ++
      (if upcs.length > 0 then [("upc", String.intercalate "," upcs)] else [])) := by
    rw [coverParams, htitle, hpool, hauthor, hisbn, hoclc, hlccn, hupc]
    simp [hmusic]
  refine ⟨hcp, ?_⟩
  have hsome : (getCoverImageURL cfg b doc).isSome = true := by
    by_cases hb : b.newRequestFails (cfg.prefixURL ++ docid) <;>
      simp [getCoverImageURL, hid, hb, hcp]
  exact Option.isSome_iff_exists.mp hsome

/-- A trivial backend for examples that never leave the builder. -/
def bC : backend :=
  ⟨fun _ => .empty, fun _ _ _ => .ok [], fun _ => false⟩

/-- A music document without identifier fields. -/
def docB : solrDocument :=
  [("id", .str "u1"), ("title", .str "T"),
   ("author", .str "Bach, J.S. [1685-1750]"),
   ("pool", .strArr ["music"])]

/-- Concrete instance of the amended cover-URL behavior: the bracketed
date annotation is stripped from the author and the music attributes are
attached. -/
theorem coverParams_music_witness :
    coverParams cfgC docB =
      some [("doc_type", "music"), ("artist_name", "Bach, J.S."),
            ("album_name", "T")] ∧
    ∃ u : String, getCoverImageURL cfgC bC docB = some u := by
  have h := coverParams_music cfgC bC docB "T" "Bach, J.S. [1685-1750]" "u1"
    ["music"] [] [] [] [] (by decide) (by decide) (by decide) (by decide)
    (by decide) (by decide) (by decide) (by decide) (by decide)
  refine ⟨?_, h.2⟩
  rw [h.1]
  decide

/-- Go map assignment `newItem[field.Name] = val` on the association-list
representation of the output record. -/
def mapSet (m : List (String × String)) (k v : String) : List (String × String) :=
  if m.any fun p => p.1 == k then m.map fun p => if p.1 == k then (k, v) else p
  else m ++ [(k, v)]

/-- Embedding of the projection loop of `handleBrowseRequest`
(cmd/service.go): for each configured output field take the document's
first value; when it is empty and the field is `cover_image_url`, fall
back to the cover-image URL builder; omit fields whose value is still
empty. -/
def projectFields (cfg : serviceConfig) (b : backend) (doc : solrDocument) :
    List outputField → List (String × String) → Option (List (String × String))
  | [], m => some m
  | f :: rest, m => do
    let v0 ← getFirstString doc f.field
    let v ← if v0 = "" ∧ f.name = "cover_image_url" then
        getCoverImageURL cfg.coverImages b doc
      else some v0
    projectFields cfg b doc rest (if v = "" then m else mapSet m f.name v)

/-- Embedding of the reverse-neighbor loop of `handleBrowseRequest`
(cmd/service.go): walk candidate keys in received order; a candidate
whose re-resolution fails is skipped; a success is prepended to the
accumulating list, and iteration stops once the incremented count reaches
the limit. -/
def browseRevLoop (resolve : String → Option (Except searchResponse shelfBrowseItem))
    (limit : Int) : List String → List shelfBrowseItem → Int →
    Option (List shelfBrowseItem)
  | [], items, _ => some items
  | key :: rest, items, count =>
    match resolve key with
    | none => none
    | some (.error _) => browseRevLoop resolve limit rest items count
    | some (.ok it) =>
      if count + 1 ≥ limit then some (it :: items)
      else browseRevLoop resolve limit rest (it :: items) (count + 1)

/-- Embedding of the forward-neighbor loop of `handleBrowseRequest`
(cmd/service.go): like the reverse loop, but successes are appended. -/
def browseFwdLoop (resolve : String → Option (Except searchResponse shelfBrowseItem))
    (limit : Int) : List String → List shelfBrowseItem → Int →
    Option (List shelfBrowseItem)
  | [], items, _ => some items
  | key :: rest, items, count =>
    match resolve key with
    | none => none
    | some (.error _) => browseFwdLoop resolve limit rest items count
    | some (.ok it) =>
      if count + 1 ≥ limit then some (items ++ [it])
      else browseFwdLoop resolve limit rest (items ++ [it]) (count + 1)

/-- The candidates of a key list that re-resolve successfully, in
received order. -/
def resolvedItems (resolve : String → Option (Except searchResponse shelfBrowseItem))
    (keys : List String) : List shelfBrowseItem :=
  keys.filterMap fun k =>
    match resolve k with
    | some (.ok it) => some it
    | _ => none

/-- Tail of `handleBrowseRequest` (cmd/service.go) after the anchor has
resolved: both term enumerations (either failure is terminal with a 500
and no items), then reverse loop, anchor append, forward loop, and the
projection of every assembled item. -/
def browseAfterAnchor (cfg : serviceConfig) (b : backend) (limit : Int)
    (thisItem : shelfBrowseItem) : Option searchResponse :=
  match b.terms cfg.shelfBrowse.forwardKey thisItem.forwardKey limit with
  | .error e => some ⟨500, some ⟨[], 500, e⟩, some e⟩
  | .ok fwdKeys =>
    match b.terms cfg.shelfBrowse.reverseKey thisItem.reverseKey limit with
    | .error e => some ⟨500, some ⟨[], 500, e⟩, some e⟩
    | .ok revKeys => do
      let revItems ← browseRevLoop
        (fun k => getItemDetails cfg b cfg.shelfBrowse.reverseKey k) limit revKeys [] 0
      let allItems ← browseFwdLoop
        (fun k => getItemDetails cfg b cfg.shelfBrowse.forwardKey k) limit fwdKeys
        (revItems ++ [thisItem]) 0
      let itemMap ← mapOption (fun it => projectFields cfg b it.doc cfg.fields []) allItems
      some ⟨200, some ⟨itemMap, 200, ""⟩, none⟩

/-- Embedding of `handleBrowseRequest` (cmd/service.go): resolve the
limit, resolve the anchor by id (any failure is terminal, echoed with an
item-free payload), then assemble and project the window. -/
def handleBrowseRequest (cfg : serviceConfig) (b : backend) (id : String)
    (rng : Option Int) : Option searchResponse :=
  let limit := resolveLimit cfg.shelfBrowse.defaultItems cfg.shelfBrowse.maxItems rng
  match getItemDetails cfg b "id" id with
  | none => none
  | some (.error resp) =>
    some { resp with data := some ⟨[], resp.status, resp.err.getD ""⟩ }
  | some (.ok thisItem) => browseAfterAnchor cfg b limit thisItem

/-- A backend whose successful document lookups only return documents the
accessor can read without panicking. -/
def wellFormedBackend (b : backend) : Prop :=
  ∀ q doc, b.lookup q = .found doc → wellFormedDoc doc = true

theorem firstAuthor_isSome (doc : solrDocument) (h : wellFormedDoc doc = true) :
    ∀ fields : List String, (firstAuthor doc fields).isSome = true := by
  intro fields
  induction fields with
  | nil => rfl
  | cons f rest ih =>
    have h1 := getFirstString_isSome_of_wellFormed doc f h
    cases h2 : getFirstString doc f with
    | none => rw [h2] at h1; simp at h1
    | some v =>
      by_cases hv : v = ""
      · simp [firstAuthor, h2, hv, ih]
      · simp [firstAuthor, h2, hv]

theorem getCoverImageURL_isSome (cfg : coverImagesConfig) (b : backend)
    (doc : solrDocument) (h : wellFormedDoc doc = true) :
    (getCoverImageURL cfg b doc).isSome = true := by
  have hid := getFirstString_isSome_of_wellFormed doc cfg.idField h
  obtain ⟨docid, hid2⟩ := Option.isSome_iff_exists.mp hid
  have hcp : (coverParams cfg doc).isSome = true := by
    have ht := getFirstString_isSome_of_wellFormed doc cfg.titleField h
    obtain ⟨t, ht2⟩ := Option.isSome_iff_exists.mp ht
    have hp := getStrings_isSome_of_wellFormed doc cfg.poolField h
    obtain ⟨p, hp2⟩ := Option.isSome_iff_exists.mp hp
    have ha := firstAuthor_isSome doc h cfg.authorFields
    obtain ⟨a, ha2⟩ := Option.isSome_iff_exists.mp ha
    have hi := getStrings_isSome_of_wellFormed doc cfg.isbnField h
    obtain ⟨i, hi2⟩ := Option.isSome_iff_exists.mp hi
    have ho := getStrings_isSome_of_wellFormed doc cfg.oclcField h
    obtain ⟨o, ho2⟩ := Option.isSome_iff_exists.mp ho
    have hl := getStrings_isSome_of_wellFormed doc cfg.lccnField h
    obtain ⟨l, hl2⟩ := Option.isSome_iff_exists.mp hl
    have hu := getStrings_isSome_of_wellFormed doc cfg.upcField h
    obtain ⟨u, hu2⟩ := Option.isSome_iff_exists.mp hu
    simp [coverParams, ht2, hp2, ha2, hi2, ho2, hl2, hu2]
  obtain ⟨ps, hps⟩ := Option.isSome_iff_exists.mp hcp
  by_cases hb : b.newRequestFails (cfg.prefixURL ++ docid) <;>
    simp [getCoverImageURL, hid2, hb, hps]

theorem projectFields_isSome (cfg : serviceConfig) (b : backend) (doc : solrDocument)
    (h : wellFormedDoc doc = true) :
    ∀ (fields : List outputField) (m : List (String × String)),
      (projectFields cfg b doc fields m).isSome = true := by
  intro fields
  induction fields with
  | nil => intro m; rfl
  | cons f rest ih =>
    intro m
    have h1 := getFirstString_isSome_of_wellFormed doc f.field h
    obtain ⟨v0, h2⟩ := Option.isSome_iff_exists.mp h1
    by_cases hc : v0 = "" ∧ f.name = "cover_image_url"
    · have h3 := getCoverImageURL_isSome cfg.coverImages b doc h
      obtain ⟨u, h4⟩ := Option.isSome_iff_exists.mp h3
      simp [projectFields, h2, hc, h4, ih]
    · simp [projectFields, h2, hc, ih]

theorem getItemDetails_ne_none (cfg : serviceConfig) (b : backend)
    (hb : wellFormedBackend b) (field value : String) :
    getItemDetails cfg b field value ≠ none := by
  unfold getItemDetails
  cases hl : b.lookup (itemQueryString field value) with
  | err msg => simp
  | empty => simp
  | found doc =>
    have hwd := hb _ _ hl
    have h1 := getFirstString_isSome_of_wellFormed doc cfg.shelfBrowse.forwardKey hwd
    obtain ⟨fk, h2⟩ := Option.isSome_iff_exists.mp h1
    have h3 := getFirstString_isSome_of_wellFormed doc cfg.shelfBrowse.reverseKey hwd
    obtain ⟨rk, h4⟩ := Option.isSome_iff_exists.mp h3
    by_cases he : fk = "" ∧ rk = "" <;> simp [h2, h4, he]

theorem getItemDetails_ok_wellFormed (cfg : serviceConfig) (b : backend)
    (hb : wellFormedBackend b) (field value : String) (it : shelfBrowseItem)
    (h : getItemDetails cfg b field value = some (.ok it)) :
    wellFormedDoc it.doc = true := by
  unfold getItemDetails at h
  cases hl : b.lookup (itemQueryString field value) with
  | err msg => rw [hl] at h; simp at h
  | empty => rw [hl] at h; simp at h
  | found doc =>
    rw [hl] at h
    have hwd := hb _ _ hl
    cases h2 : getFirstString doc cfg.shelfBrowse.forwardKey with
    | none => simp [h2] at h
    | some fk =>
      cases h4 : getFirstString doc cfg.shelfBrowse.reverseKey with
      | none => simp [h2, h4] at h
      | some rk =>
        by_cases he : fk = "" ∧ rk = ""
        · simp [h2, h4, he] at h
        · simp only [h2, h4] at h
          simp [he] at h
          rw [← h]
          exact hwd

theorem browseFwdLoop_eq (resolve : String → Option (Except searchResponse shelfBrowseItem))
    (limit : Int) :
    ∀ (keys : List String) (items : List shelfBrowseItem) (count : Int),
      (∀ k ∈ keys, resolve k ≠ none) → count < limit →
      browseFwdLoop resolve limit keys items count =
        some (items ++ (resolvedItems resolve keys).take (limit - count).toNat) := by
  intro keys
  induction keys with
  | nil =>
    intro items count _ _
    simp [browseFwdLoop, resolvedItems]
  | cons key rest ih =>
    intro items count hnp hc
    have hk := hnp key (List.mem_cons_self key rest)
    have hrest : ∀ k ∈ rest, resolve k ≠ none :=
      fun k hk2 => hnp k (List.mem_cons_of_mem _ hk2)
    cases hr : resolve key with
    | none => exact absurd hr hk
    | some res =>
      cases res with
      | error e =>
        rw [browseFwdLoop, hr]
        rw [ih items count hrest hc]
        simp [resolvedItems, List.filterMap_cons, hr]
      | ok it =>
        by_cases hstop : count + 1 ≥ limit
        · have h1 : (limit - count).toNat = 1 := by omega
          rw [browseFwdLoop, hr]
          simp [hstop, resolvedItems, List.filterMap_cons, hr, h1]
        · have hc2 : count + 1 < limit := by omega
          have h1 : (limit - count).toNat = (limit - (count + 1)).toNat + 1 := by omega
          rw [browseFwdLoop, hr]
          have hih := ih (items ++ [it]) (count + 1) hrest hc2
          simp [hstop, hih, resolvedItems, List.filterMap_cons, hr, h1, List.take_succ_cons,
            List.append_assoc]

theorem browseRevLoop_eq (resolve : String → Option (Except searchResponse shelfBrowseItem))
    (limit : Int) :
    ∀ (keys : List String) (items : List shelfBrowseItem) (count : Int),
      (∀ k ∈ keys, resolve k ≠ none) → count < limit →
      browseRevLoop resolve limit keys items count =
        some (((resolvedItems resolve keys).take (limit - count).toNat).reverse ++ items) := by
  intro keys
  induction keys with
  | nil =>
    intro items count _ _
    simp [browseRevLoop, resolvedItems]
  | cons key rest ih =>
    intro items count hnp hc
    have hk := hnp key (List.mem_cons_self key rest)
    have hrest : ∀ k ∈ rest, resolve k ≠ none :=
      fun k hk2 => hnp k (List.mem_cons_of_mem _ hk2)
    cases hr : resolve key with
    | none => exact absurd hr hk
    | some res =>
      cases res with
      | error e =>
        rw [browseRevLoop, hr]
        rw [ih items count hrest hc]
        simp [resolvedItems, List.filterMap_cons, hr]
      | ok it =>
        by_cases hstop : count + 1 ≥ limit
        · have h1 : (limit - count).toNat = 1 := by omega
          rw [browseRevLoop, hr]
          simp [hstop, resolvedItems, List.filterMap_cons, hr, h1]
        · have hc2 : count + 1 < limit := by omega
          have h1 : (limit - count).toNat = (limit - (count + 1)).toNat + 1 := by omega
          rw [browseRevLoop, hr]
          have hih := ih (it :: items) (count + 1) hrest hc2
          simp [hstop, hih, resolvedItems, List.filterMap_cons, hr, h1, List.take_succ_cons,
            List.append_assoc]

theorem mem_resolvedItems (resolve : String → Option (Except searchResponse shelfBrowseItem))
    (keys : List String) (it : shelfBrowseItem) (h : it ∈ resolvedItems resolve keys) :
    ∃ k ∈ keys, resolve k = some (.ok it) := by
  unfold resolvedItems at h
  obtain ⟨k, hk, hfk⟩ := List.mem_filterMap.mp h
  refine ⟨k, hk, ?_⟩
  cases hr : resolve k with
  | none => rw [hr] at hfk; simp at hfk
  | some res =>
    cases res with
    | error e => rw [hr] at hfk; simp at hfk
    | ok it2 =>
      rw [hr] at hfk
      simp only [Option.some_inj] at hfk
      rw [hfk]

theorem mapOption_isSome {α β : Type} (f : α → Option β) (l : List α)
    (h : ∀ a ∈ l, (f a).isSome = true) : (mapOption f l).isSome = true := by
  induction l with
  | nil => rfl
  | cons a rest ih =>
    have h1 := h a (List.mem_cons_self a rest)
    obtain ⟨b, h2⟩ := Option.isSome_iff_exists.mp h1
    have h3 : ∀ x ∈ rest, (f x).isSome = true :=
      fun x hx => h x (List.mem_cons_of_mem _ hx)
    obtain ⟨l', h4⟩ := Option.isSome_iff_exists.mp (ih h3)
    simp [mapOption, h2, h4]

theorem mapOption_length {α β : Type} (f : α → Option β) :
    ∀ (l : List α) (l' : List β), mapOption f l = some l' → l'.length = l.length := by
  intro l
  induction l with
  | nil =>
    intro l' h
    simp only [mapOption, Option.some_inj] at h
    rw [← h]
    rfl
  | cons a rest ih =>
    intro l' h
    cases h2 : f a with
    | none => simp [mapOption, h2] at h
    | some b =>
      cases h4 : mapOption f rest with
      | none => simp [mapOption, h2, h4] at h
      | some l2 =>
        simp [mapOption, h2, h4] at h
        subst h
        simp [ih l2 h4]

theorem browseAfterAnchor_success (cfg : serviceConfig) (b : backend) (limit : Int)
    (anchor : shelfBrowseItem) (fwdKeys revKeys : List String)
    (hwf : wellFormedBackend b) (hpos : 0 < limit)
    (hwfA : wellFormedDoc anchor.doc = true)
    (hFwd : b.terms cfg.shelfBrowse.forwardKey anchor.forwardKey limit = .ok fwdKeys)
    (hRev : b.terms cfg.shelfBrowse.reverseKey anchor.reverseKey limit = .ok revKeys) :
    ∃ maps : List (List (String × String)),
      browseAfterAnchor cfg b limit anchor = some ⟨200, some ⟨maps, 200, ""⟩, none⟩ ∧
      mapOption (fun it => projectFields cfg b it.doc cfg.fields [])
        (((resolvedItems (fun k => getItemDetails cfg b cfg.shelfBrowse.reverseKey k)
            revKeys).take limit.toNat).reverse ++ anchor ::
          (resolvedItems (fun k => getItemDetails cfg b cfg.shelfBrowse.forwardKey k)
            fwdKeys).take limit.toNat) = some maps := by
  have hnpR : ∀ k ∈ revKeys,
      (fun k => getItemDetails cfg b cfg.shelfBrowse.reverseKey k) k ≠ none :=
    fun k _ => getItemDetails_ne_none cfg b hwf _ k
  have hnpF : ∀ k ∈ fwdKeys,
      (fun k => getItemDetails cfg b cfg.shelfBrowse.forwardKey k) k ≠ none :=
    fun k _ => getItemDetails_ne_none cfg b hwf _ k
  have hRevLoop := browseRevLoop_eq
    (fun k => getItemDetails cfg b cfg.shelfBrowse.reverseKey k) limit revKeys [] 0 hnpR hpos
  have hFwdLoop := browseFwdLoop_eq
    (fun k => getItemDetails cfg b cfg.shelfBrowse.forwardKey k) limit fwdKeys
    ((((resolvedItems (fun k => getItemDetails cfg b cfg.shelfBrowse.reverseKey k)
        revKeys).take (limit - 0).toNat).reverse ++ []) ++ [anchor]) 0 hnpF hpos
  have hmem : ∀ it ∈
      (((resolvedItems (fun k => getItemDetails cfg b cfg.shelfBrowse.reverseKey k)
          revKeys).take limit.toNat).reverse ++ anchor ::
        (resolvedItems (fun k => getItemDetails cfg b cfg.shelfBrowse.forwardKey k)
          fwdKeys).take limit.toNat),
      wellFormedDoc it.doc = true := by
    intro it hit
    rcases List.mem_append.mp hit with h1 | h2
    · have h3 := List.mem_reverse.mp h1
      have h4 := List.take_subset _ _ h3
      obtain ⟨k, _, hres⟩ := mem_resolvedItems _ _ _ h4
      exact getItemDetails_ok_wellFormed cfg b hwf _ k it hres
    · rcases List.mem_cons.mp h2 with h3 | h4
      · rw [h3]; exact hwfA
      · have h5 := List.take_subset _ _ h4
        obtain ⟨k, _, hres⟩ := mem_resolvedItems _ _ _ h5
        exact getItemDetails_ok_wellFormed cfg b hwf _ k it hres
  have hproj : (mapOption (fun it => projectFields cfg b it.doc cfg.fields [])
      (((resolvedItems (fun k => getItemDetails cfg b cfg.shelfBrowse.reverseKey k)
          revKeys).take limit.toNat).reverse ++ anchor ::
        (resolvedItems (fun k => getItemDetails cfg b cfg.shelfBrowse.forwardKey k)
          fwdKeys).take limit.toNat)).isSome = true :=
    mapOption_isSome _ _ (fun it hit => projectFields_isSome cfg b it.doc (hmem it hit) _ _)
  obtain ⟨maps, hmaps⟩ := Option.isSome_iff_exists.mp hproj
  refine ⟨maps, ?_, hmaps⟩
  rw [browseAfterAnchor, hFwd, hRev]
  simp only [sub_zero, List.append_nil] at hRevLoop hFwdLoop
  simp [hRevLoop, hFwdLoop, hmaps]

theorem handleBrowse_of_anchor_ok (cfg : serviceConfig) (b : backend) (id : String)
    (rng : Option Int) (anchor : shelfBrowseItem)
    (hAnchor : getItemDetails cfg b "id" id = some (.ok anchor)) :
    handleBrowseRequest cfg b id rng =
      browseAfterAnchor cfg b
        (resolveLimit cfg.shelfBrowse.defaultItems cfg.shelfBrowse.maxItems rng) anchor := by
  rw [handleBrowseRequest]
  simp [hAnchor]

theorem handleBrowse_of_anchor_error (cfg : serviceConfig) (b : backend) (id : String)
    (rng : Option Int) (resp : searchResponse)
    (h : getItemDetails cfg b "id" id = some (.error resp)) :
    handleBrowseRequest cfg b id rng =
      some { resp with data := some ⟨[], resp.status, resp.err.getD ""⟩ } := by
  rw [handleBrowseRequest]
  simp [h]

/-- C1: when the anchor resolves with at least one shelf key and both
term enumerations succeed, the assembled window is exactly the
successfully re-resolved reverse neighbors (in shelf order), then the
anchor, then the successfully re-resolved forward neighbors; the anchor
sits at the index equal to the reverse-neighbor count, occurs exactly
once, and the response carries the projection of that sequence.  The
hypotheses that no candidate re-resolves to an item equal to the anchor
reflect that in Go the anchor struct is a distinct value from every
re-resolved candidate. -/
theorem browse_window_anchor_position (cfg : serviceConfig) (b : backend) (id : String)
    (rng : Option Int) (anchor : shelfBrowseItem) (fwdKeys revKeys : List String)
    (hwf : wellFormedBackend b)
    (hdef : 0 < cfg.shelfBrowse.defaultItems)
    (hdm : cfg.shelfBrowse.defaultItems ≤ cfg.shelfBrowse.maxItems)
    (hAnchor : getItemDetails cfg b "id" id = some (.ok anchor))
    (hFwd : b.terms cfg.shelfBrowse.forwardKey anchor.forwardKey
      (resolveLimit cfg.shelfBrowse.defaultItems cfg.shelfBrowse.maxItems rng) = .ok fwdKeys)
    (hRev : b.terms cfg.shelfBrowse.reverseKey anchor.reverseKey
      (resolveLimit cfg.shelfBrowse.defaultItems cfg.shelfBrowse.maxItems rng) = .ok revKeys)
    (hNoRev : anchor ∉ resolvedItems
      (fun k => getItemDetails cfg b cfg.shelfBrowse.reverseKey k) revKeys)
    (hNoFwd : anchor ∉ resolvedItems
      (fun k => getItemDetails cfg b cfg.shelfBrowse.forwardKey k) fwdKeys) :
    ∃ (revN fwdN : List shelfBrowseItem) (maps : List (List (String × String))),
      revN = ((resolvedItems (fun k => getItemDetails cfg b cfg.shelfBrowse.reverseKey k)
        revKeys).take
        (resolveLimit cfg.shelfBrowse.defaultItems cfg.shelfBrowse.maxItems rng).toNat).reverse ∧
      fwdN = (resolvedItems (fun k => getItemDetails cfg b cfg.shelfBrowse.forwardKey k)
        fwdKeys).take
        (resolveLimit cfg.shelfBrowse.defaultItems cfg.shelfBrowse.maxItems rng).toNat ∧
      handleBrowseRequest cfg b id rng = some ⟨200, some ⟨maps, 200, ""⟩, none⟩ ∧
      mapOption (fun it => projectFields cfg b it.doc cfg.fields [])
        (revN ++ anchor :: fwdN) = some maps ∧
      (revN ++ anchor :: fwdN)[revN.length]? = some anchor ∧
      (revN ++ anchor :: fwdN).count anchor = 1 := by
  have hpos := resolveLimit_pos cfg.shelfBrowse.defaultItems cfg.shelfBrowse.maxItems rng hdef hdm
  have hwfA := getItemDetails_ok_wellFormed cfg b hwf "id" id anchor hAnchor
  obtain ⟨maps, h1, h2⟩ :=
    browseAfterAnchor_success cfg b _ anchor fwdKeys revKeys hwf hpos hwfA hFwd hRev
  refine ⟨_, _, maps, rfl, rfl, ?_, h2, ?_, ?_⟩
  · rw [handleBrowse_of_anchor_ok cfg b id rng anchor hAnchor, h1]
  · rw [List.getElem?_append_right (le_refl _)]
    simp
  · have hnr : anchor ∉ ((resolvedItems
        (fun k => getItemDetails cfg b cfg.shelfBrowse.reverseKey k) revKeys).take
        (resolveLimit cfg.shelfBrowse.defaultItems cfg.shelfBrowse.maxItems rng).toNat).reverse := by
      intro hmem
      exact hNoRev (List.take_subset _ _ (List.mem_reverse.mp hmem))
    have hnf : anchor ∉ (resolvedItems
        (fun k => getItemDetails cfg b cfg.shelfBrowse.forwardKey k) fwdKeys).take
        (resolveLimit cfg.shelfBrowse.defaultItems cfg.shelfBrowse.maxItems rng).toNat := by
      intro hmem
      exact hNoFwd (List.take_subset _ _ hmem)
    rw [List.count_append, List.count_eq_zero.mpr hnr, List.count_cons_self,
      List.count_eq_zero.mpr hnf]

/-- C2: under the same success hypotheses (and a configuration whose
default is positive and at most the maximum), the number of neighbors on
each side equals min(resolved limit, number of candidates on that side
that re-resolve successfully), never exceeds the configured maximum, a
failing candidate is silently skipped (the request still succeeds with
status 200), and the projected output has exactly one entry per
assembled item - no placeholders. -/
theorem browse_window_neighbor_counts (cfg : serviceConfig) (b : backend) (id : String)
    (rng : Option Int) (anchor : shelfBrowseItem) (fwdKeys revKeys : List String)
    (hwf : wellFormedBackend b)
    (hdef : 0 < cfg.shelfBrowse.defaultItems)
    (hdm : cfg.shelfBrowse.defaultItems ≤ cfg.shelfBrowse.maxItems)
    (hAnchor : getItemDetails cfg b "id" id = some (.ok anchor))
    (hFwd : b.terms cfg.shelfBrowse.forwardKey anchor.forwardKey
      (resolveLimit cfg.shelfBrowse.defaultItems cfg.shelfBrowse.maxItems rng) = .ok fwdKeys)
    (hRev : b.terms cfg.shelfBrowse.reverseKey anchor.reverseKey
      (resolveLimit cfg.shelfBrowse.defaultItems cfg.shelfBrowse.maxItems rng) = .ok revKeys) :
    ∃ (revN fwdN : List shelfBrowseItem) (maps : List (List (String × String))),
      revN = ((resolvedItems (fun k => getItemDetails cfg b cfg.shelfBrowse.reverseKey k)
        revKeys).take
        (resolveLimit cfg.shelfBrowse.defaultItems cfg.shelfBrowse.maxItems rng).toNat).reverse ∧
      fwdN = (resolvedItems (fun k => getItemDetails cfg b cfg.shelfBrowse.forwardKey k)
        fwdKeys).take
        (resolveLimit cfg.shelfBrowse.defaultItems cfg.shelfBrowse.maxItems rng).toNat ∧
      handleBrowseRequest cfg b id rng = some ⟨200, some ⟨maps, 200, ""⟩, none⟩ ∧
      mapOption (fun it => projectFields cfg b it.doc cfg.fields [])
        (revN ++ anchor :: fwdN) = some maps ∧
      revN.length = min
        (resolveLimit cfg.shelfBrowse.defaultItems cfg.shelfBrowse.maxItems rng).toNat
        (resolvedItems (fun k => getItemDetails cfg b cfg.shelfBrowse.reverseKey k)
          revKeys).length ∧
      fwdN.length = min
        (resolveLimit cfg.shelfBrowse.defaultItems cfg.shelfBrowse.maxItems rng).toNat
        (resolvedItems (fun k => getItemDetails cfg b cfg.shelfBrowse.forwardKey k)
          fwdKeys).length ∧
      revN.length ≤ cfg.shelfBrowse.maxItems.toNat ∧
      fwdN.length ≤ cfg.shelfBrowse.maxItems.toNat ∧
      maps.length = revN.length + 1 + fwdN.length := by
  have hpos := resolveLimit_pos cfg.shelfBrowse.defaultItems cfg.shelfBrowse.maxItems rng hdef hdm
  have hmax := resolveLimit_le_max cfg.shelfBrowse.defaultItems cfg.shelfBrowse.maxItems rng hdm
  have hmaxN : (resolveLimit cfg.shelfBrowse.defaultItems cfg.shelfBrowse.maxItems rng).toNat ≤
      cfg.shelfBrowse.maxItems.toNat := Int.toNat_le_toNat hmax
  have hwfA := getItemDetails_ok_wellFormed cfg b hwf "id" id anchor hAnchor
  obtain ⟨maps, h1, h2⟩ :=
    browseAfterAnchor_success cfg b _ anchor fwdKeys revKeys hwf hpos hwfA hFwd hRev
  have hlen := mapOption_length _ _ _ h2
  refine ⟨_, _, maps, rfl, rfl, ?_, h2, ?_, ?_, ?_, ?_, ?_⟩
  · rw [handleBrowse_of_anchor_ok cfg b id rng anchor hAnchor, h1]
  · simp [List.length_take]
  · simp [List.length_take]
  · simp only [List.length_reverse, List.length_take]
    exact le_trans (min_le_left _ _) hmaxN
  · simp only [List.length_take]
    exact le_trans (min_le_left _ _) hmaxN
  · rw [hlen]
    simp only [List.length_append, List.length_cons]
    omega

theorem browseAfterAnchor_status (cfg : serviceConfig) (b : backend) (limit : Int)
    (item : shelfBrowseItem) (resp : searchResponse)
    (h : browseAfterAnchor cfg b limit item = some resp) :
    resp.status = 500 ∨ resp.status = 200 := by
  rw [browseAfterAnchor] at h
  cases hf : b.terms cfg.shelfBrowse.forwardKey item.forwardKey limit with
  | error e =>
    simp only [hf] at h
    injection h with h
    rw [← h]
    left
    rfl
  | ok fwdKeys =>
    cases hr : b.terms cfg.shelfBrowse.reverseKey item.reverseKey limit with
    | error e =>
      simp only [hf, hr] at h
      injection h with h
      rw [← h]
      left
      rfl
    | ok revKeys =>
      simp only [hf, hr] at h
      cases h1 : browseRevLoop
          (fun k => getItemDetails cfg b cfg.shelfBrowse.reverseKey k) limit revKeys [] 0 with
      | none => simp [h1] at h
      | some revItems =>
        cases h2 : browseFwdLoop
            (fun k => getItemDetails cfg b cfg.shelfBrowse.forwardKey k) limit fwdKeys
            (revItems ++ [item]) 0 with
        | none => simp [h1, h2] at h
        | some allItems =>
          cases h3 : mapOption
              (fun it => projectFields cfg b it.doc cfg.fields []) allItems with
          | none => simp [h1, h2, h3] at h
          | some maps =>
            simp [h1, h2, h3] at h
            right
            rw [← h]

/-- C3: a backend error on the anchor lookup, or an error from either
term-enumeration call, is terminal: the request resolves to a 500-class
response whose payload carries no items — a partial window is never
returned. -/
theorem browse_terminal_internal_error (cfg : serviceConfig) (b : backend) (id : String)
    (rng : Option Int)
    (h : (∃ msg, b.lookup (itemQueryString "id" id) = .err msg) ∨
      (∃ (anchor : shelfBrowseItem) (e : String),
        getItemDetails cfg b "id" id = some (.ok anchor) ∧
        (b.terms cfg.shelfBrowse.forwardKey anchor.forwardKey
            (resolveLimit cfg.shelfBrowse.defaultItems cfg.shelfBrowse.maxItems rng)
            = .error e ∨
          ∃ fwdKeys, b.terms cfg.shelfBrowse.forwardKey anchor.forwardKey
              (resolveLimit cfg.shelfBrowse.defaultItems cfg.shelfBrowse.maxItems rng)
              = .ok fwdKeys ∧
            b.terms cfg.shelfBrowse.reverseKey anchor.reverseKey
              (resolveLimit cfg.shelfBrowse.defaultItems cfg.shelfBrowse.maxItems rng)
              = .error e))) :
    ∃ resp : searchResponse, handleBrowseRequest cfg b id rng = some resp ∧
      resp.status = 500 ∧ resp.err.isSome = true ∧
      ∃ msg, resp.data = some ⟨[], 500, msg⟩ := by
  rcases h with ⟨msg, hmsg⟩ | ⟨anchor, e, hA, hcase⟩
  · have hgid : getItemDetails cfg b "id" id = some (.error ⟨500, none, some msg⟩) := by
      rw [getItemDetails, hmsg]
    rw [handleBrowse_of_anchor_error cfg b id rng _ hgid]
    exact ⟨_, rfl, rfl, rfl, msg, rfl⟩
  · rw [handleBrowse_of_anchor_ok cfg b id rng anchor hA]
    rcases hcase with hFe | ⟨fwdKeys, hFok, hRe⟩
    · rw [browseAfterAnchor, hFe]
      exact ⟨_, rfl, rfl, rfl, e, rfl⟩
    · rw [browseAfterAnchor, hFok, hRe]
      exact ⟨_, rfl, rfl, rfl, e, rfl⟩

/-- C4: a resolved browse request yields a 404-class outcome exactly when
the anchor lookup reports zero matches or the anchor document's two
shelf keys both extract to the empty string; in the no-shelf-keys case
the failure message is "item does not have shelf keys". -/
theorem browse_notFound_iff (cfg : serviceConfig) (b : backend) (id : String)
    (rng : Option Int) (resp : searchResponse)
    (h : handleBrowseRequest cfg b id rng = some resp) :
    (resp.status = 404 ↔
      (b.lookup (itemQueryString "id" id) = .empty ∨
        ∃ doc : solrDocument, b.lookup (itemQueryString "id" id) = .found doc ∧
          getFirstString doc cfg.shelfBrowse.forwardKey = some "" ∧
          getFirstString doc cfg.shelfBrowse.reverseKey = some "")) ∧
    ((∃ doc : solrDocument, b.lookup (itemQueryString "id" id) = .found doc ∧
        getFirstString doc cfg.shelfBrowse.forwardKey = some "" ∧
        getFirstString doc cfg.shelfBrowse.reverseKey = some "") →
      resp.err = some "item does not have shelf keys" ∧
      resp.data = some ⟨[], 404, "item does not have shelf keys"⟩) := by
  cases hl : b.lookup (itemQueryString "id" id) with
  | err msg =>
    have hgid : getItemDetails cfg b "id" id = some (.error ⟨500, none, some msg⟩) := by
      rw [getItemDetails, hl]
    rw [handleBrowse_of_anchor_error cfg b id rng _ hgid] at h
    injection h with h
    subst h
    simp
  | empty =>
    have hgid : getItemDetails cfg b "id" id =
        some (.error ⟨404, none, some "record not found"⟩) := by
      rw [getItemDetails, hl]
    rw [handleBrowse_of_anchor_error cfg b id rng _ hgid] at h
    injection h with h
    subst h
    simp
  | found doc =>
    cases hfk : getFirstString doc cfg.shelfBrowse.forwardKey with
    | none =>
      have hgid : getItemDetails cfg b "id" id = none := by
        rw [getItemDetails, hl]
        simp [hfk]
      rw [handleBrowseRequest] at h
      simp [hgid] at h
    | some fk =>
      cases hrk : getFirstString doc cfg.shelfBrowse.reverseKey with
      | none =>
        have hgid : getItemDetails cfg b "id" id = none := by
          rw [getItemDetails, hl]
          simp [hfk, hrk]
        rw [handleBrowseRequest] at h
        simp [hgid] at h
      | some rk =>
        by_cases he : fk = "" ∧ rk = ""
        · obtain ⟨he1, he2⟩ := he
          subst he1
          subst he2
          have hgid : getItemDetails cfg b "id" id =
              some (.error ⟨404, none, some "item does not have shelf keys"⟩) := by
            rw [getItemDetails, hl]
            simp [hfk, hrk]
          rw [handleBrowse_of_anchor_error cfg b id rng _ hgid] at h
          injection h with h
          subst h
          exact ⟨⟨fun _ => Or.inr ⟨doc, rfl, hfk, hrk⟩, fun _ => rfl⟩,
            fun _ => ⟨rfl, rfl⟩⟩
        · have hgid : getItemDetails cfg b "id" id = some (.ok ⟨doc, fk, rk⟩) := by
            rw [getItemDetails, hl]
            simp [hfk, hrk, he]
          rw [handleBrowse_of_anchor_ok cfg b id rng _ hgid] at h
          have hst := browseAfterAnchor_status cfg b _ _ resp h
          constructor
          · constructor
            · intro h404
              rcases hst with h5 | h5 <;> omega
            · rintro (h1 | ⟨doc2, h1, h2, h3⟩)
              · simp at h1
              · injection h1 with h1
                subst h1
                rw [hfk] at h2
                rw [hrk] at h3
                injection h2 with h2
                injection h3 with h3
                exact absurd ⟨h2, h3⟩ he
          · rintro ⟨doc2, h1, h2, h3⟩
            injection h1 with h1
            subst h1
            rw [hfk] at h2
            rw [hrk] at h3
            injection h2 with h2
            injection h3 with h3
            exact absurd ⟨h2, h3⟩ he

/-- C10: when the anchor's two shelf keys extract with exactly one of
them empty, the request is not rejected: the anchor stage succeeds and
resolution proceeds to `browseAfterAnchor`, which by definition issues
the term enumeration of each direction with that direction's key — hence
the empty string, an exclusive lower bound enumerating from the start of
the field's term index, for the empty-key direction.  The final two
conjuncts observe this: an enumeration error at lower bound "" for the
empty-key direction is what decides the request. -/
theorem browse_one_empty_key_proceeds (cfg : serviceConfig) (b : backend) (id : String)
    (rng : Option Int) (doc : solrDocument) (fk rk : String)
    (hFound : b.lookup (itemQueryString "id" id) = .found doc)
    (hfk : getFirstString doc cfg.shelfBrowse.forwardKey = some fk)
    (hrk : getFirstString doc cfg.shelfBrowse.reverseKey = some rk)
    (hone : (fk = "" ∧ rk ≠ "") ∨ (fk ≠ "" ∧ rk = "")) :
    getItemDetails cfg b "id" id = some (.ok ⟨doc, fk, rk⟩) ∧
    handleBrowseRequest cfg b id rng =
      browseAfterAnchor cfg b
        (resolveLimit cfg.shelfBrowse.defaultItems cfg.shelfBrowse.maxItems rng)
        ⟨doc, fk, rk⟩ ∧
    (fk = "" → ∀ e, b.terms cfg.shelfBrowse.forwardKey ""
        (resolveLimit cfg.shelfBrowse.defaultItems cfg.shelfBrowse.maxItems rng) = .error e →
      handleBrowseRequest cfg b id rng = some ⟨500, some ⟨[], 500, e⟩, some e⟩) ∧
    (rk = "" → ∀ fwdKeys e, b.terms cfg.shelfBrowse.forwardKey fk
        (resolveLimit cfg.shelfBrowse.defaultItems cfg.shelfBrowse.maxItems rng) = .ok fwdKeys →
      b.terms cfg.shelfBrowse.reverseKey ""
        (resolveLimit cfg.shelfBrowse.defaultItems cfg.shelfBrowse.maxItems rng) = .error e →
      handleBrowseRequest cfg b id rng = some ⟨500, some ⟨[], 500, e⟩, some e⟩) := by
  have hne : ¬ (fk = "" ∧ rk = "") := by
    rcases hone with ⟨h1, h2⟩ | ⟨h1, h2⟩ <;> tauto
  have hgid : getItemDetails cfg b "id" id = some (.ok ⟨doc, fk, rk⟩) := by
    rw [getItemDetails, hFound]
    simp [hfk, hrk, hne]
  have hmain := handleBrowse_of_anchor_ok cfg b id rng _ hgid
  refine ⟨hgid, hmain, ?_, ?_⟩
  · intro hfe e hterm
    rw [hmain, browseAfterAnchor]
    subst hfe
    rw [hterm]
  · intro hre fwdKeys e htermF htermR
    rw [hmain, browseAfterAnchor]
    subst hre
    rw [htermF, htermR]

deriving instance DecidableEq for Except

/-- Service configuration used by the browse examples. -/
def sbCfgW : serviceConfig :=
  ⟨⟨"fk", "rk", 3, 5⟩, cfgC, [⟨"id", "id"⟩, ⟨"title", "title"⟩]⟩

/-- Anchor document of the example shelf. -/
def docA : solrDocument :=
  [("id", .str "a1"), ("title", .str "Anchor"), ("fk", .str "B100"), ("rk", .str "X100")]

/-- First reverse neighbor of the example shelf. -/
def docR1 : solrDocument :=
  [("id", .str "r1"), ("title", .str "Rev1"), ("fk", .str "B099"), ("rk", .str "X099")]

/-- First forward neighbor of the example shelf. -/
def docF1 : solrDocument :=
  [("id", .str "f1"), ("title", .str "Fwd1"), ("fk", .str "B101"), ("rk", .str "X101")]

/-- Example backend: the anchor and one neighbor per direction resolve;
the second candidate key on each side does not (it re-resolves to zero
rows and is skipped). -/
def bW : backend :=
  ⟨fun q =>
    if q = "id:\"a1\"" then .found docA
    else if q = "rk:\"X099\"" then .found docR1
    else if q = "fk:\"B101\"" then .found docF1
    else .empty,
  fun f k _ =>
    if f = "fk" ∧ k = "B100" then .ok ["B101", "B102"]
    else if f = "rk" ∧ k = "X100" then .ok ["X099", "X098"]
    else .ok [],
  fun _ => false⟩

/-- The example anchor item. -/
def anchorW : shelfBrowseItem := ⟨docA, "B100", "X100"⟩

theorem bW_wellFormed : wellFormedBackend bW := by
  intro q doc h
  simp only [bW] at h
  split_ifs at h with h1 h2 h3 <;>
    first
      | (injection h with h; subst h; decide)
      | simp at h

/-- Concrete browse window: reverse candidates ["X099", "X098"] of which
only the first resolves, forward candidates ["B101", "B102"] of which
only the first resolves; the anchor lands at index 1, once. -/
theorem browse_window_anchor_position_witness :
    getItemDetails sbCfgW bW "id" "a1" = some (.ok anchorW) ∧
    (∃ (revN fwdN : List shelfBrowseItem) (maps : List (List (String × String))),
      revN = ((resolvedItems (fun k => getItemDetails sbCfgW bW sbCfgW.shelfBrowse.reverseKey k)
        ["X099", "X098"]).take
        (resolveLimit sbCfgW.shelfBrowse.defaultItems sbCfgW.shelfBrowse.maxItems none).toNat).reverse ∧
      fwdN = (resolvedItems (fun k => getItemDetails sbCfgW bW sbCfgW.shelfBrowse.forwardKey k)
        ["B101", "B102"]).take
        (resolveLimit sbCfgW.shelfBrowse.defaultItems sbCfgW.shelfBrowse.maxItems none).toNat ∧
      handleBrowseRequest sbCfgW bW "a1" none = some ⟨200, some ⟨maps, 200, ""⟩, none⟩ ∧
      mapOption (fun it => projectFields sbCfgW bW it.doc sbCfgW.fields [])
        (revN ++ anchorW :: fwdN) = some maps ∧
      (revN ++ anchorW :: fwdN)[revN.length]? = some anchorW ∧
      (revN ++ anchorW :: fwdN).count anchorW = 1) :=
  ⟨by decide,
   browse_window_anchor_position sbCfgW bW "a1" none anchorW ["B101", "B102"]
     ["X099", "X098"] bW_wellFormed (by decide) (by decide) (by decide) (by decide)
     (by decide) (by decide) (by decide)⟩

/-- Concrete neighbor counts: limit 3, one resolvable candidate per side,
so one neighbor per side = min(3, 1), below the maximum 5, with the
request succeeding and one output record per assembled item. -/
theorem browse_window_neighbor_counts_witness :
    getItemDetails sbCfgW bW "id" "a1" = some (.ok anchorW) ∧
    (∃ (revN fwdN : List shelfBrowseItem) (maps : List (List (String × String))),
      revN = ((resolvedItems (fun k => getItemDetails sbCfgW bW sbCfgW.shelfBrowse.reverseKey k)
        ["X099", "X098"]).take
        (resolveLimit sbCfgW.shelfBrowse.defaultItems sbCfgW.shelfBrowse.maxItems none).toNat).reverse ∧
      fwdN = (resolvedItems (fun k => getItemDetails sbCfgW bW sbCfgW.shelfBrowse.forwardKey k)
        ["B101", "B102"]).take
        (resolveLimit sbCfgW.shelfBrowse.defaultItems sbCfgW.shelfBrowse.maxItems none).toNat ∧
      handleBrowseRequest sbCfgW bW "a1" none = some ⟨200, some ⟨maps, 200, ""⟩, none⟩ ∧
      mapOption (fun it => projectFields sbCfgW bW it.doc sbCfgW.fields [])
        (revN ++ anchorW :: fwdN) = some maps ∧
      revN.length = min
        (resolveLimit sbCfgW.shelfBrowse.defaultItems sbCfgW.shelfBrowse.maxItems none).toNat
        (resolvedItems (fun k => getItemDetails sbCfgW bW sbCfgW.shelfBrowse.reverseKey k)
          ["X099", "X098"]).length ∧
      fwdN.length = min
        (resolveLimit sbCfgW.shelfBrowse.defaultItems sbCfgW.shelfBrowse.maxItems none).toNat
        (resolvedItems (fun k => getItemDetails sbCfgW bW sbCfgW.shelfBrowse.forwardKey k)
          ["B101", "B102"]).length ∧
      revN.length ≤ sbCfgW.shelfBrowse.maxItems.toNat ∧
      fwdN.length ≤ sbCfgW.shelfBrowse.maxItems.toNat ∧
      maps.length = revN.length + 1 + fwdN.length) :=
  ⟨by decide,
   browse_window_neighbor_counts sbCfgW bW "a1" none anchorW ["B101", "B102"]
     ["X099", "X098"] bW_wellFormed (by decide) (by decide) (by decide) (by decide)
     (by decide)⟩

/-- Backend whose document lookups always fail with a transport error. -/
def bErr : backend :=
  ⟨fun _ => .err "failed to receive Solr response", fun _ _ _ => .ok [], fun _ => false⟩

/-- Concrete terminal failure: the anchor lookup reports a backend error,
and the whole request resolves to a 500 with an item-free payload. -/
theorem browse_terminal_internal_error_witness :
    bErr.lookup (itemQueryString "id" "a1") = .err "failed to receive Solr response" ∧
    (∃ resp : searchResponse, handleBrowseRequest sbCfgW bErr "a1" none = some resp ∧
      resp.status = 500 ∧ resp.err.isSome = true ∧
      ∃ msg, resp.data = some ⟨[], 500, msg⟩) :=
  ⟨rfl,
   browse_terminal_internal_error sbCfgW bErr "a1" none
     (Or.inl ⟨"failed to receive Solr response", rfl⟩)⟩

/-- The response produced when the anchor is absent. -/
def respNF : searchResponse :=
  ⟨404, some ⟨[], 404, "record not found"⟩, some "record not found"⟩

/-- Concrete 404 classification: an absent anchor yields status 404, and
the characterization matches the backend outcome. -/
theorem browse_notFound_iff_witness :
    handleBrowseRequest sbCfgW bC "zz" none = some respNF ∧
    ((respNF.status = 404 ↔
      (bC.lookup (itemQueryString "id" "zz") = .empty ∨
        ∃ doc : solrDocument, bC.lookup (itemQueryString "id" "zz") = .found doc ∧
          getFirstString doc sbCfgW.shelfBrowse.forwardKey = some "" ∧
          getFirstString doc sbCfgW.shelfBrowse.reverseKey = some "")) ∧
    ((∃ doc : solrDocument, bC.lookup (itemQueryString "id" "zz") = .found doc ∧
        getFirstString doc sbCfgW.shelfBrowse.forwardKey = some "" ∧
        getFirstString doc sbCfgW.shelfBrowse.reverseKey = some "") →
      respNF.err = some "item does not have shelf keys" ∧
      respNF.data = some ⟨[], 404, "item does not have shelf keys"⟩)) :=
  ⟨by decide, browse_notFound_iff sbCfgW bC "zz" none respNF (by decide)⟩

/-- A document with a reverse shelf key but no forward-key field, whose
forward key therefore extracts to the empty string. -/
def docE : solrDocument := [("id", .str "e1"), ("rk", .str "X100")]

/-- Backend serving only the single-key anchor. -/
def bE : backend :=
  ⟨fun q => if q = "id:\"e1\"" then .found docE else .empty,
   fun _ _ _ => .ok [], fun _ => false⟩

/-- Concrete single-empty-key instance: the anchor with only a reverse
key is accepted and resolution proceeds with the empty forward key as
the forward enumeration's exclusive lower bound. -/
theorem browse_one_empty_key_proceeds_witness :
    getFirstString docE sbCfgW.shelfBrowse.forwardKey = some "" ∧
    (getItemDetails sbCfgW bE "id" "e1" = some (.ok ⟨docE, "", "X100"⟩) ∧
    handleBrowseRequest sbCfgW bE "e1" none =
      browseAfterAnchor sbCfgW bE
        (resolveLimit sbCfgW.shelfBrowse.defaultItems sbCfgW.shelfBrowse.maxItems none)
        ⟨docE, "", "X100"⟩ ∧
    ("" = "" → ∀ e, bE.terms sbCfgW.shelfBrowse.forwardKey ""
        (resolveLimit sbCfgW.shelfBrowse.defaultItems sbCfgW.shelfBrowse.maxItems none)
        = .error e →
      handleBrowseRequest sbCfgW bE "e1" none = some ⟨500, some ⟨[], 500, e⟩, some e⟩) ∧
    ("X100" = "" → ∀ fwdKeys e, bE.terms sbCfgW.shelfBrowse.forwardKey ""
        (resolveLimit sbCfgW.shelfBrowse.defaultItems sbCfgW.shelfBrowse.maxItems none)
        = .ok fwdKeys →
      bE.terms sbCfgW.shelfBrowse.reverseKey ""
        (resolveLimit sbCfgW.shelfBrowse.defaultItems sbCfgW.shelfBrowse.maxItems none)
        = .error e →
      handleBrowseRequest sbCfgW bE "e1" none = some ⟨500, some ⟨[], 500, e⟩, some e⟩)) :=
  ⟨by decide,
   browse_one_empty_key_proceeds sbCfgW bE "e1" none docE "" "X100" (by decide)
     (by decide) (by decide) (Or.inl ⟨rfl, by decide⟩)⟩
